import Mathlib

/-!
Verification of the Accessibility Rule Evaluation Engine of
`mobileAccessibility.py` (class `ComprehensiveMobileAccessibilityScanner`).

The Python source is shallowly embedded: Python tuples become products,
Python `None` becomes `Option.none`, machine floats used by the scoring
formula become `ℚ` (all quantities involved are exact multiples of 1/2),
and code paths that raise uncaught exceptions are modelled with `Except`.
-/

/-- Axis-aligned rectangle `(x1, y1, x2, y2)` as produced by `parse_bounds`. -/
abbrev Rect := Int × Int × Int × Int

/-- One finding (issue dict) as produced by the rule-check methods.  Every
check method populates exactly the keys `rule`, `priority`, `message`,
`bounds`, `xpath`, `resource_id`, `guideline`; `bounds` is `None` (here
`none`) when the element had no parsable bounds. -/
structure Finding where
  rule : String
  priority : String
  message : String
  bounds : Option Rect
  xpath : String
  resource_id : String
  guideline : String
deriving DecidableEq, Repr

/-- Python `int()` applied to a rational value: truncation toward zero.
`Rat.floor` is used so the definition evaluates by kernel reduction. -/
def py_int (q : ℚ) : ℤ :=
  if 0 ≤ q then q.floor else -((-q).floor)

/-- Embeds the per-priority counting loop of `generate_report`
(`summary[p] += 1` for `p` in the four known buckets): the count of
findings whose `priority` equals `p`. -/
def summary_count (p : String) (issues : List Finding) : Nat :=
  issues.countP (fun f => f.priority == p)

/-- Embeds `weighted_sum = summary["critical"]*3 + summary["high"]*2 +
summary["medium"]*1 + summary["low"]*0.5` of `generate_report`. -/
def weighted_sum (issues : List Finding) : ℚ :=
  (summary_count "critical" issues : ℚ) * 3 + (summary_count "high" issues : ℚ) * 2 +
    (summary_count "medium" issues : ℚ) * 1 + (summary_count "low" issues : ℚ) * (1 / 2)

/-- Embeds `audit_score = 100 if total_issues == 0 else
max(0, 100 - int((weighted_sum/max(total_issues, 1))*20))` of
`generate_report` (line 1115). -/
def audit_score (issues : List Finding) : ℤ :=
  if issues.length = 0 then 100
  else max 0 (100 - py_int ((weighted_sum issues / ((max issues.length 1 : ℕ) : ℚ)) * 20))

/-- Modelled from the spec: `audit_score = 100` when there are zero findings;
otherwise `audit_score = max(0, 100 - floor((weighted_sum / total_findings) × 20))`.
Stated with the mathematical floor and the plain total, for comparison with
the code's `audit_score`. -/
def spec_audit_score (issues : List Finding) : ℤ :=
  if issues.length = 0 then 100
  else max 0 (100 - ⌊(weighted_sum issues / (issues.length : ℚ)) * 20⌋)

/-- Embeds `elements_overlap` (lines 891-898): separation is tested with
strict `<` on both axes, and overlap is the negation of separation. -/
def elements_overlap (bounds1 bounds2 : Rect) : Bool :=
  match bounds1, bounds2 with
  | (x1, y1, x2, y2), (x3, y3, x4, y4) =>
    (!(decide (x2 < x3) || decide (x4 < x1))) && (!(decide (y2 < y3) || decide (y4 < y1)))

theorem rat_floor_eq_int_floor (q : ℚ) : q.floor = ⌊q⌋ :=
  (Rat.floor_def' q).trans Rat.floor_def.symm

theorem py_int_eq_floor {q : ℚ} (h : 0 ≤ q) : py_int q = ⌊q⌋ := by
  rw [py_int, if_pos h, rat_floor_eq_int_floor]

theorem summary_counts_le_length (l : List Finding) :
    summary_count "critical" l + summary_count "high" l + summary_count "medium" l +
      summary_count "low" l ≤ l.length := by
  induction l with
  | nil => simp [summary_count]
  | cons f t ih =>
    simp only [summary_count, List.countP_cons, List.length_cons] at *
    by_cases h1 : f.priority = "critical" <;> by_cases h2 : f.priority = "high" <;>
      by_cases h3 : f.priority = "medium" <;> by_cases h4 : f.priority = "low" <;>
      simp_all <;> omega

theorem weighted_sum_nonneg (l : List Finding) : 0 ≤ weighted_sum l := by
  unfold weighted_sum
  positivity

theorem weighted_sum_le (l : List Finding) : weighted_sum l ≤ 3 * l.length := by
  have h := summary_counts_le_length l
  have hc : (0 : ℚ) ≤ summary_count "critical" l := by positivity
  have hh : (0 : ℚ) ≤ summary_count "high" l := by positivity
  have hm : (0 : ℚ) ≤ summary_count "medium" l := by positivity
  have hl : (0 : ℚ) ≤ summary_count "low" l := by positivity
  have h' : (summary_count "critical" l : ℚ) + summary_count "high" l +
      summary_count "medium" l + summary_count "low" l ≤ l.length := by
    exact_mod_cast h
  unfold weighted_sum
  linarith

theorem audit_score_nonneg (l : List Finding) : 0 ≤ audit_score l := by
  unfold audit_score
  split
  · norm_num
  · exact le_max_left 0 _

theorem audit_score_le_100 (l : List Finding) : audit_score l ≤ 100 := by
  unfold audit_score
  split
  · norm_num
  · have hnn : (0 : ℚ) ≤ (weighted_sum l / ((max l.length 1 : ℕ) : ℚ)) * 20 := by
      have := weighted_sum_nonneg l
      positivity
    rw [py_int_eq_floor hnn]
    have hfl : (0 : ℤ) ≤ ⌊(weighted_sum l / ((max l.length 1 : ℕ) : ℚ)) * 20⌋ :=
      Int.floor_nonneg.mpr hnn
    omega

/-- Claim C6: for every finding list the audit score agrees with the
spec formula `max(0, 100 - floor((weighted_sum/total)*20))` (100 on the
empty list), and is an integer in [0, 100]. -/
theorem spec_c6_audit_score_formula :
    (∀ issues : List Finding,
      audit_score issues = spec_audit_score issues ∧
      0 ≤ audit_score issues ∧ audit_score issues ≤ 100) ∧
    audit_score [] = 100 := by
  refine ⟨fun issues => ⟨?_, audit_score_nonneg issues, audit_score_le_100 issues⟩, rfl⟩
  unfold audit_score spec_audit_score
  by_cases h : issues.length = 0
  · simp [h]
  · have hmax : max issues.length 1 = issues.length := by omega
    have hnn : (0 : ℚ) ≤ (weighted_sum issues / ((max issues.length 1 : ℕ) : ℚ)) * 20 := by
      have := weighted_sum_nonneg issues
      positivity
    rw [if_neg h, if_neg h, py_int_eq_floor hnn, hmax]

/-- Claim C10: a non-empty finding list in which no priority is one of the
four known buckets yields an audit score of exactly 100. -/
theorem spec_c10_unknown_priorities_score_100 (issues : List Finding)
    (hne : issues ≠ [])
    (hunk : ∀ f ∈ issues, f.priority ≠ "critical" ∧ f.priority ≠ "high" ∧
      f.priority ≠ "medium" ∧ f.priority ≠ "low") :
    audit_score issues = 100 := by
  have hzero : ∀ p ∈ ["critical", "high", "medium", "low"], summary_count p issues = 0 := by
    intro p hp
    rw [summary_count, List.countP_eq_zero]
    intro f hf
    have := hunk f hf
    fin_cases hp <;> simp_all
  have hw : weighted_sum issues = 0 := by
    unfold weighted_sum
    rw [hzero "critical" (by simp), hzero "high" (by simp),
      hzero "medium" (by simp), hzero "low" (by simp)]
    norm_num
  have hlen : issues.length ≠ 0 := by
    simpa [List.length_eq_zero] using hne
  unfold audit_score
  rw [if_neg hlen, hw]
  norm_num [py_int, rat_floor_eq_int_floor]

/-- A finding with unknown priority, used to exercise the scoring engine. -/
def unknown_priority_finding : Finding :=
  ⟨"custom-rule", "informational", "custom message", some (0, 0, 5, 5), "", "", ""⟩

/-- Witness for C10: the concrete one-element list with priority
"informational" scores 100. -/
theorem spec_c10_witness :
    ([unknown_priority_finding] ≠ ([] : List Finding)) ∧
      audit_score [unknown_priority_finding] = 100 :=
  ⟨by decide, spec_c10_unknown_priorities_score_100 [unknown_priority_finding]
    (by decide) (by decide)⟩

theorem weighted_sum_append_critical (A C : List Finding)
    (hC : ∀ f ∈ C, f.priority = "critical") :
    weighted_sum (A ++ C) = weighted_sum A + 3 * C.length := by
  have hcrit : summary_count "critical" C = C.length := by
    rw [summary_count, List.countP_eq_length]
    intro f hf
    simpa using hC f hf
  have hother : ∀ p ∈ ["high", "medium", "low"], summary_count p C = 0 := by
    intro p hp
    rw [summary_count, List.countP_eq_zero]
    intro f hf
    have := hC f hf
    fin_cases hp <;> simp_all
  have h1 := hcrit
  have h2 := hother "high" (by simp)
  have h3 := hother "medium" (by simp)
  have h4 := hother "low" (by simp)
  unfold summary_count at h1 h2 h3 h4
  unfold weighted_sum summary_count
  rw [List.countP_append, List.countP_append, List.countP_append, List.countP_append,
    h1, h2, h3, h4]
  push_cast
  ring

/-- Claim C2 is false on the code: the score is a severity *density*, so
adding a medium finding to a purely critical set raises the score.
`score([critical]) = 40` but `score([critical, medium]) = 60`. -/
theorem spec_c2_counterexample :
    (⟨"overlapping-elements", "medium", "m2", some (0, 0, 20, 20), "", "", ""⟩ : Finding).priority
        = "medium" ∧
    audit_score [⟨"missing-labels", "critical", "m1", some (0, 0, 10, 10), "", "", ""⟩] = 40 ∧
    audit_score [⟨"missing-labels", "critical", "m1", some (0, 0, 10, 10), "", "", ""⟩,
        ⟨"overlapping-elements", "medium", "m2", some (0, 0, 20, 20), "", "", ""⟩] = 60 ∧
    ¬ (audit_score [⟨"missing-labels", "critical", "m1", some (0, 0, 10, 10), "", "", ""⟩,
          ⟨"overlapping-elements", "medium", "m2", some (0, 0, 20, 20), "", "", ""⟩] ≤
        audit_score [⟨"missing-labels", "critical", "m1", some (0, 0, 10, 10), "", "", ""⟩]) := by
  have h1 : audit_score [⟨"missing-labels", "critical", "m1", some (0, 0, 10, 10), "", "", ""⟩]
      = 40 := by
    have hc : summary_count "critical"
        [⟨"missing-labels", "critical", "m1", some (0, 0, 10, 10), "", "", ""⟩] = 1 := by decide
    have hh : summary_count "high"
        [⟨"missing-labels", "critical", "m1", some (0, 0, 10, 10), "", "", ""⟩] = 0 := by decide
    have hm : summary_count "medium"
        [⟨"missing-labels", "critical", "m1", some (0, 0, 10, 10), "", "", ""⟩] = 0 := by decide
    have hl : summary_count "low"
        [⟨"missing-labels", "critical", "m1", some (0, 0, 10, 10), "", "", ""⟩] = 0 := by decide
    have hw : weighted_sum
        [⟨"missing-labels", "critical", "m1", some (0, 0, 10, 10), "", "", ""⟩] = 3 := by
      rw [weighted_sum, hc, hh, hm, hl]; norm_num
    rw [audit_score, hw]
    norm_num [py_int, rat_floor_eq_int_floor]
  have h2 : audit_score [⟨"missing-labels", "critical", "m1", some (0, 0, 10, 10), "", "", ""⟩,
      ⟨"overlapping-elements", "medium", "m2", some (0, 0, 20, 20), "", "", ""⟩] = 60 := by
    have hc : summary_count "critical"
        [⟨"missing-labels", "critical", "m1", some (0, 0, 10, 10), "", "", ""⟩,
         ⟨"overlapping-elements", "medium", "m2", some (0, 0, 20, 20), "", "", ""⟩] = 1 := by decide
    have hh : summary_count "high"
        [⟨"missing-labels", "critical", "m1", some (0, 0, 10, 10), "", "", ""⟩,
         ⟨"overlapping-elements", "medium", "m2", some (0, 0, 20, 20), "", "", ""⟩] = 0 := by decide
    have hm : summary_count "medium"
        [⟨"missing-labels", "critical", "m1", some (0, 0, 10, 10), "", "", ""⟩,
         ⟨"overlapping-elements", "medium", "m2", some (0, 0, 20, 20), "", "", ""⟩] = 1 := by decide
    have hl : summary_count "low"
        [⟨"missing-labels", "critical", "m1", some (0, 0, 10, 10), "", "", ""⟩,
         ⟨"overlapping-elements", "medium", "m2", some (0, 0, 20, 20), "", "", ""⟩] = 0 := by decide
    have hw : weighted_sum
        [⟨"missing-labels", "critical", "m1", some (0, 0, 10, 10), "", "", ""⟩,
         ⟨"overlapping-elements", "medium", "m2", some (0, 0, 20, 20), "", "", ""⟩] = 4 := by
      rw [weighted_sum, hc, hh, hm, hl]; norm_num
    rw [audit_score, hw]
    norm_num [py_int, rat_floor_eq_int_floor]
  exact ⟨rfl, h1, h2, by rw [h1, h2]; decide⟩

/-- Claim C2 amended: monotonicity does hold when the added findings all
have priority critical (the maximal weight), since then the severity
density cannot decrease. -/
theorem spec_c2_amended (A C : List Finding) (hC : ∀ f ∈ C, f.priority = "critical") :
    audit_score (A ++ C) ≤ audit_score A := by
  by_cases hA : A.length = 0
  · have h100 : audit_score A = 100 := by rw [audit_score, if_pos hA]
    rw [h100]
    exact audit_score_le_100 _
  · by_cases hC0 : C.length = 0
    · rw [List.length_eq_zero] at hC0
      subst hC0
      simp
    · have hABlen : (A ++ C).length ≠ 0 := by
        simp only [List.length_append]
        omega
      have hmaxA : max A.length 1 = A.length := by omega
      have hmaxB : max (A ++ C).length 1 = (A ++ C).length := by
        simp only [List.length_append]
        omega
      have ht : (0 : ℚ) < (A.length : ℚ) := by
        exact_mod_cast Nat.pos_of_ne_zero hA
      have htk : (0 : ℚ) < ((A ++ C).length : ℚ) := by
        exact_mod_cast Nat.pos_of_ne_zero hABlen
      have hknn : (0 : ℚ) ≤ (C.length : ℚ) := by positivity
      have hwA_nonneg := weighted_sum_nonneg A
      have hwA_le := weighted_sum_le A
      have hdiv : weighted_sum A / (A.length : ℚ) ≤
          weighted_sum (A ++ C) / ((A ++ C).length : ℚ) := by
        rw [weighted_sum_append_critical A C hC, div_le_div_iff₀ ht htk]
        have hlen : ((A ++ C).length : ℚ) = (A.length : ℚ) + (C.length : ℚ) := by
          push_cast [List.length_append]
          ring
        rw [hlen]
        nlinarith
      have hmul : (weighted_sum A / (A.length : ℚ)) * 20 ≤
          (weighted_sum (A ++ C) / ((A ++ C).length : ℚ)) * 20 := by
        nlinarith
      have hxA_nonneg : (0 : ℚ) ≤ (weighted_sum A / (A.length : ℚ)) * 20 := by positivity
      have hxB_nonneg : (0 : ℚ) ≤ (weighted_sum (A ++ C) / ((A ++ C).length : ℚ)) * 20 := by
        have := weighted_sum_nonneg (A ++ C)
        positivity
      rw [audit_score, audit_score, if_neg hA, if_neg hABlen, hmaxA, hmaxB,
        py_int_eq_floor hxA_nonneg, py_int_eq_floor hxB_nonneg]
      have hfloor := Int.floor_le_floor hmul
      exact max_le_max (le_refl 0) (by omega)

/-- Witness for the amended C2: adding one more critical finding to a
one-critical-finding list does not raise the score. -/
theorem spec_c2_witness :
    (⟨"missing-labels", "critical", "m1", some (0, 0, 10, 10), "", "", ""⟩ : Finding).priority
        = "critical" ∧
    audit_score ([⟨"missing-labels", "critical", "m1", some (0, 0, 10, 10), "", "", ""⟩] ++
        [⟨"missing-labels", "critical", "m3", some (5, 5, 15, 15), "", "", ""⟩]) ≤
      audit_score [⟨"missing-labels", "critical", "m1", some (0, 0, 10, 10), "", "", ""⟩] :=
  ⟨rfl, spec_c2_amended
    [⟨"missing-labels", "critical", "m1", some (0, 0, 10, 10), "", "", ""⟩]
    [⟨"missing-labels", "critical", "m3", some (5, 5, 15, 15), "", "", ""⟩]
    (by decide)⟩

/-- Claim C3 is false on the code: rectangles touching along a shared edge
ARE reported as overlapping, because the separation test uses strict `<`
(`x2 < x3 or x4 < x1`) on closed intervals. -/
theorem spec_c3_counterexample :
    elements_overlap (0, 0, 10, 10) (10, 0, 20, 10) = true := by decide

/-- Claim C3 amended: `elements_overlap` is symmetric in its two rectangle
arguments, and rectangles that touch only along a shared edge DO count as
overlapping (the separation comparisons are strict). -/
theorem spec_c3_amended :
    (∀ bounds1 bounds2 : Rect,
      elements_overlap bounds1 bounds2 = elements_overlap bounds2 bounds1) ∧
    elements_overlap (0, 0, 10, 10) (10, 0, 20, 10) = true := by
  refine ⟨?_, by decide⟩
  rintro ⟨x1, y1, x2, y2⟩ ⟨x3, y3, x4, y4⟩
  simp only [elements_overlap]
  rw [Bool.or_comm (decide (x2 < x3)), Bool.or_comm (decide (y2 < y3))]

/-- One element record of the first pass of `analyze_accessibility`
(lines 459-473): the `element_data` dict, with the boolean attribute
strings already compared against `"true"` and `text`/`content_desc`
stripped, exactly as in the source. -/
structure ElementData where
  bounds : Option Rect
  text : String
  content_desc : String
  clickable : Bool
  focusable : Bool
  long_clickable : Bool
  checkable : Bool
  checked : Bool
  cls : String
  resource_id : String
  package : String
  xpath : String
deriving DecidableEq, Repr

/-- Embeds `_check_target_size` (lines 770-791): for each element with
(truthy) bounds that is clickable, flag it when its width or height is
strictly below `min_size`.  `min_size` and `priority` are the values read
from the rule configuration (`rules[rule_id].get("min_size", 44)` and
`rules[rule_id].get("priority", "high")`). -/
def check_target_size (rule_id guideline priority : String) (min_size : Int)
    (all_elements : List ElementData) : List Finding :=
  all_elements.foldl (fun issues e =>
    match e.bounds with
    | none => issues
    | some (x1, y1, x2, y2) =>
      if e.clickable then
        if x2 - x1 < min_size ∨ y2 - y1 < min_size then
          issues ++ [⟨rule_id, priority,
            "Touch target too small " ++ toString (x2 - x1) ++ "x" ++ toString (y2 - y1) ++
              "px (minimum " ++ toString min_size ++ "x" ++ toString min_size ++ "px)",
            some (x1, y1, x2, y2), e.xpath, e.resource_id, guideline⟩]
        else issues
      else issues) []

/-- Claim C7: on a clickable element with parsed bounds, the target-size
check produces a finding iff the width or the height is strictly below the
configured minimum (so an exactly `m`-by-`m` element is not flagged and a
`(m-1)`-by-`m` element is). -/
theorem spec_c7_target_size_boundary (rule_id guideline priority : String) (m : Int)
    (e : ElementData) (x1 y1 x2 y2 : Int)
    (hb : e.bounds = some (x1, y1, x2, y2)) (hc : e.clickable = true) :
    check_target_size rule_id guideline priority m [e] ≠ [] ↔
      (x2 - x1 < m ∨ y2 - y1 < m) := by
  unfold check_target_size
  simp only [List.foldl_cons, List.foldl_nil, hb, hc, if_true]
  by_cases hsize : x2 - x1 < m ∨ y2 - y1 < m
  · simp [hsize]
  · simp [hsize]

/-- Witness for C7: a 43-by-44 clickable element at minimum size 44 is
flagged. -/
theorem spec_c7_witness :
    (⟨some (0, 0, 43, 44), "", "", true, false, false, false, false,
        "android.widget.Button", "", "", ""⟩ : ElementData).bounds = some (0, 0, 43, 44) ∧
    (⟨some (0, 0, 43, 44), "", "", true, false, false, false, false,
        "android.widget.Button", "", "", ""⟩ : ElementData).clickable = true ∧
    check_target_size "touch-target-size" "WCAG 2.5.5 - Target Size (Enhanced)" "high" 44
      [⟨some (0, 0, 43, 44), "", "", true, false, false, false, false,
        "android.widget.Button", "", "", ""⟩] ≠ [] :=
  ⟨rfl, rfl,
    (spec_c7_target_size_boundary "touch-target-size" "WCAG 2.5.5 - Target Size (Enhanced)"
      "high" 44
      ⟨some (0, 0, 43, 44), "", "", true, false, false, false, false,
        "android.widget.Button", "", "", ""⟩
      0 0 43 44 rfl rfl).mpr (by decide)⟩

/-- Key used by the dedup key computation `(tuple(i.get("bounds", ())), i["rule"])`
when the finding has non-null bounds. -/
abbrev DedupKey := Rect × String

/-- Recursive worker for the deduplication loop of `analyze_accessibility`
(lines 531-539).  Every finding dict produced by the rule checks carries a
`bounds` key, so `i.get("bounds", ())` returns the stored value; when that
value is `None`, Python evaluates `tuple(None)` and raises `TypeError`,
which is modelled as `Except.error`.  `seen` models the `seen` set and
`unique` the accumulated output list. -/
def dedup_go (seen : List DedupKey) (unique : List Finding) :
    List Finding → Except String (List Finding)
  | [] => .ok unique
  | f :: rest =>
    match f.bounds with
    | none => .error "TypeError: NoneType object is not iterable"
    | some b =>
      if (b, f.rule) ∈ seen then dedup_go seen unique rest
      else dedup_go ((b, f.rule) :: seen) (unique ++ [f]) rest

/-- Embeds the deduplication pass of `analyze_accessibility` (lines 531-540). -/
def dedup_issues (issues : List Finding) : Except String (List Finding) :=
  dedup_go [] [] issues

/-- Claim C1: evaluating the dedup pass on two null-bounds findings for the
same rule.  The pass does not complete: `tuple(None)` raises `TypeError`
on the very first finding, so the engine does raise mid-scan for such
data-quality conditions. -/
theorem spec_c1_null_bounds_dedup_raises :
    dedup_issues
      [⟨"missing-labels", "critical", "Clickable element has no visible label or content description",
          none, "", "", "WCAG 1.3.1 - Info and Relationships"⟩,
       ⟨"missing-labels", "critical", "Clickable element has no visible label or content description",
          none, "", "", "WCAG 1.3.1 - Info and Relationships"⟩] =
      .error "TypeError: NoneType object is not iterable" := rfl

/-- The dedup key of a finding, defined when its bounds are non-null. -/
def finding_key (f : Finding) : Option DedupKey :=
  f.bounds.map (fun b => (b, f.rule))

theorem finding_key_isSome (f : Finding) : (finding_key f).isSome = f.bounds.isSome := by
  cases hb : f.bounds <;> simp [finding_key, hb]

theorem dedup_go_cons_some {f : Finding} {b : Rect} (hb : f.bounds = some b)
    (seen : List DedupKey) (acc rest : List Finding) :
    dedup_go seen acc (f :: rest) =
      if (b, f.rule) ∈ seen then dedup_go seen acc rest
      else dedup_go ((b, f.rule) :: seen) (acc ++ [f]) rest := by
  rw [dedup_go, hb]

theorem dedup_go_clean (l : List Finding) : ∀ (seen : List DedupKey) (acc : List Finding),
    (∀ f ∈ l, f.bounds.isSome) →
    (l.filterMap finding_key).Nodup →
    (∀ k ∈ l.filterMap finding_key, k ∉ seen) →
    dedup_go seen acc l = .ok (acc ++ l) := by
  induction l with
  | nil => intro seen acc _ _ _; simp [dedup_go]
  | cons f rest ih =>
    intro seen acc hsome hnodup hfresh
    obtain ⟨b, hb⟩ := Option.isSome_iff_exists.mp (hsome f (by simp))
    have hkey : finding_key f = some (b, f.rule) := by simp [finding_key, hb]
    have hkeys : (f :: rest).filterMap finding_key =
        (b, f.rule) :: rest.filterMap finding_key := by
      simp [List.filterMap_cons, hkey]
    rw [hkeys] at hnodup hfresh
    have hnotseen : (b, f.rule) ∉ seen := hfresh (b, f.rule) (by simp)
    rw [dedup_go_cons_some hb, if_neg hnotseen]
    rw [ih ((b, f.rule) :: seen) (acc ++ [f])
      (fun g hg => hsome g (by simp [hg]))
      hnodup.of_cons
      (by
        intro k hk
        simp only [List.mem_cons, not_or]
        refine ⟨?_, hfresh k (by simp [hk])⟩
        intro hkeq
        exact (List.nodup_cons.mp hnodup).1 (hkeq ▸ hk))]
    simp

theorem dedup_go_ok_props (l : List Finding) : ∀ (seen : List DedupKey) (acc Y : List Finding),
    dedup_go seen acc l = .ok Y →
    (∀ f ∈ acc, f.bounds.isSome) →
    (acc.filterMap finding_key).Nodup →
    (∀ k ∈ acc.filterMap finding_key, k ∈ seen) →
    (∀ f ∈ Y, f.bounds.isSome) ∧ (Y.filterMap finding_key).Nodup := by
  induction l with
  | nil =>
    intro seen acc Y h hsome hnodup hsub
    rw [dedup_go] at h
    cases h
    exact ⟨hsome, hnodup⟩
  | cons f rest ih =>
    intro seen acc Y h hsome hnodup hsub
    cases hb : f.bounds with
    | none =>
      rw [dedup_go, hb] at h
      simp at h
    | some b =>
      rw [dedup_go_cons_some hb] at h
      by_cases hmem : (b, f.rule) ∈ seen
      · rw [if_pos hmem] at h
        exact ih seen acc Y h hsome hnodup hsub
      · rw [if_neg hmem] at h
        have hkey : finding_key f = some (b, f.rule) := by simp [finding_key, hb]
        have hacckeys : (acc ++ [f]).filterMap finding_key =
            acc.filterMap finding_key ++ [(b, f.rule)] := by
          simp [List.filterMap_append, hkey]
        refine ih ((b, f.rule) :: seen) (acc ++ [f]) Y h ?_ ?_ ?_
        · intro g hg
          rcases List.mem_append.mp hg with hg' | hg'
          · exact hsome g hg'
          · simp only [List.mem_singleton] at hg'
            subst hg'
            simp [hb]
        · rw [hacckeys, List.nodup_append]
          refine ⟨hnodup, List.nodup_singleton _, ?_⟩
          intro k hk hk'
          simp only [List.mem_singleton] at hk'
          subst hk'
          exact hmem (hsub _ hk)
        · intro k hk
          rw [hacckeys] at hk
          rcases List.mem_append.mp hk with hk' | hk'
          · exact List.mem_cons_of_mem _ (hsub k hk')
          · simp only [List.mem_singleton] at hk'
            subst hk'
            simp

/-- Claim C8: the deduplication pass is idempotent wherever it is defined:
if `dedup_issues X` completes with output `Y`, then running it again on `Y`
returns `Y` unchanged. -/
theorem spec_c8_dedup_idempotent (X Y : List Finding)
    (h : dedup_issues X = .ok Y) : dedup_issues Y = .ok Y := by
  obtain ⟨hsome, hnodup⟩ :=
    dedup_go_ok_props X [] [] Y h (by simp) (by simp) (by simp)
  have := dedup_go_clean Y [] [] hsome hnodup (by simp)
  simpa [dedup_issues] using this

/-- A concrete input for the dedup pass: two distinct-key findings plus a
repeat of the first key with a different message. -/
def dedup_demo_input : List Finding :=
  [⟨"missing-labels", "critical", "first", some (0, 0, 10, 10), "", "", ""⟩,
   ⟨"image-descriptions", "critical", "second", some (0, 0, 10, 10), "", "", ""⟩,
   ⟨"missing-labels", "critical", "third", some (0, 0, 10, 10), "", "", ""⟩]

/-- The dedup output for `dedup_demo_input`: first-seen order, the repeated
`(bounds, rule)` key dropped. -/
def dedup_demo_output : List Finding :=
  [⟨"missing-labels", "critical", "first", some (0, 0, 10, 10), "", "", ""⟩,
   ⟨"image-descriptions", "critical", "second", some (0, 0, 10, 10), "", "", ""⟩]

/-- Witness for C8 at a concrete input. -/
theorem spec_c8_witness :
    dedup_issues dedup_demo_input = .ok dedup_demo_output ∧
      dedup_issues dedup_demo_output = .ok dedup_demo_output :=
  ⟨rfl, spec_c8_dedup_idempotent dedup_demo_input dedup_demo_output rfl⟩

/-- The `y1` component of an element's parsed bounds (`e["bounds"][1]`):
only ever applied to elements that passed the `if e["bounds"]` filter, so
the `none` default is unreachable in `check_focus_order`. -/
def bounds_y1 (e : ElementData) : Int :=
  match e.bounds with
  | some (_, y1, _, _) => y1
  | none => 0

/-- The `x1` component of an element's parsed bounds (`e["bounds"][0]`). -/
def bounds_x1 (e : ElementData) : Int :=
  match e.bounds with
  | some (x1, _, _, _) => x1
  | none => 0

/-- The comparison Python's stable sort applies for
`sort(key=lambda e: (e["bounds"][1], e["bounds"][0]))`: lexicographic
order on the `(y1, x1)` key tuples. -/
def focus_le (e1 e2 : ElementData) : Bool :=
  decide (bounds_y1 e1 < bounds_y1 e2) ||
    (decide (bounds_y1 e1 = bounds_y1 e2) && decide (bounds_x1 e1 ≤ bounds_x1 e2))

/-- Embeds `has_illogical_focus_order` (lines 681-687):
`curr_bounds[1] < prev_bounds[1] - 100`. -/
def has_illogical_focus_order (prev_element curr_element : ElementData) : Bool :=
  decide (bounds_y1 curr_element < bounds_y1 prev_element - 100)

/-- The `for i in range(1, len(...))` loop of `check_focus_order`, walking
consecutive pairs of the sorted element list. -/
def focus_order_scan (priority : String) : ElementData → List ElementData → List Finding
  | _, [] => []
  | prev, curr :: rest =>
    (if has_illogical_focus_order prev curr then
      [⟨"focus-order", priority, "Potential illogical focus order between elements",
        curr.bounds, curr.xpath, curr.resource_id, "WCAG 2.4.3 - Focus Order"⟩]
     else []) ++ focus_order_scan priority curr rest

/-- Embeds `check_focus_order` (lines 657-679): filter focusable elements
to those with (truthy) bounds, sort by `(y1, x1)`, then flag illogical
consecutive transitions.  `priority` is
`rules["focus-order"].get("priority", "high")`. -/
def check_focus_order (priority : String)
    (all_elements clickable_elements focusable_elements form_elements : List ElementData) :
    List Finding :=
  match (focusable_elements.filter (fun e => e.bounds.isSome)).mergeSort focus_le with
  | [] => []
  | hd :: tl => focus_order_scan priority hd tl

theorem focus_le_trans : ∀ a b c : ElementData,
    focus_le a b = true → focus_le b c = true → focus_le a c = true := by
  intro a b c hab hbc
  simp only [focus_le, Bool.or_eq_true, Bool.and_eq_true, decide_eq_true_eq] at *
  omega

theorem focus_le_total : ∀ a b : ElementData, (focus_le a b || focus_le b a) = true := by
  intro a b
  simp only [focus_le, Bool.or_eq_true, Bool.and_eq_true, decide_eq_true_eq]
  omega

theorem focus_order_scan_sorted (priority : String) :
    ∀ (tl : List ElementData) (prev : ElementData),
      List.Chain' (fun a b => focus_le a b = true) (prev :: tl) →
      focus_order_scan priority prev tl = [] := by
  intro tl
  induction tl with
  | nil => intro prev _; rfl
  | cons curr rest ih =>
    intro prev hchain
    rw [List.chain'_cons] at hchain
    obtain ⟨hle, hchain'⟩ := hchain
    have hflag : has_illogical_focus_order prev curr = false := by
      simp only [focus_le, Bool.or_eq_true, Bool.and_eq_true, decide_eq_true_eq] at hle
      simp only [has_illogical_focus_order, decide_eq_false_iff_not]
      omega
    rw [focus_order_scan, hflag]
    simpa using ih curr hchain'

/-- Claim C9: the focus-order check can never fire.  After sorting by
`(top, left)` the flag condition `curr.top < prev.top - 100` is
unsatisfiable between consecutive elements, so `check_focus_order` returns
the empty finding list on every input. -/
theorem spec_c9_focus_order_always_empty (priority : String)
    (all_elements clickable_elements focusable_elements form_elements : List ElementData) :
    check_focus_order priority all_elements clickable_elements focusable_elements
      form_elements = [] := by
  rw [check_focus_order]
  have hsorted := List.sorted_mergeSort focus_le_trans focus_le_total
    (focusable_elements.filter (fun e => e.bounds.isSome))
  cases hm : (focusable_elements.filter (fun e => e.bounds.isSome)).mergeSort focus_le with
  | nil => rfl
  | cons hd tl =>
    rw [hm] at hsorted
    show focus_order_scan priority hd tl = []
    exact focus_order_scan_sorted priority tl hd hsorted.chain'

/-- Python `str.replace("][", ",")`: one left-to-right pass replacing
non-overlapping occurrences. -/
def replace_bracket_pair : List Char → List Char
  | ']' :: '[' :: rest => ',' :: replace_bracket_pair rest
  | c :: rest => c :: replace_bracket_pair rest
  | [] => []

/-- Python `str.split(sep)` for a one-character separator: splitting on
every occurrence, with `"".split(sep) == [""]`. -/
def split_on_char (sep : Char) : List Char → List (List Char)
  | [] => [[]]
  | c :: rest =>
    if c = sep then [] :: split_on_char sep rest
    else
      match split_on_char sep rest with
      | s :: ss => (c :: s) :: ss
      | [] => [[c]]

/-- The digits of a Python `int()` literal: at least one digit, all
decimal. -/
def parse_digits (cs : List Char) : Option Nat :=
  if cs.isEmpty then none
  else
    cs.foldl (fun acc c =>
      match acc with
      | none => none
      | some n => if c.isDigit then some (n * 10 + (c.toNat - 48)) else none) (some 0)

/-- Python `int(s)` on an already-stripped string: optional sign followed
by decimal digits; anything else raises `ValueError` (`none` here). -/
def parse_int_chars : List Char → Option Int
  | '-' :: rest => (parse_digits rest).map (fun n => -(n : Int))
  | '+' :: rest => (parse_digits rest).map (fun n => (n : Int))
  | cs => (parse_digits cs).map (fun n => (n : Int))

/-- Embeds `parse_bounds` (lines 379-387): replace `"]["` by `","`, strip
the brackets, split on commas, require exactly four integers, and return
the min/max-normalized rectangle; any failure (the bare `except`) yields
`None`. -/
def parse_bounds (bounds_str : String) : Option Rect :=
  match split_on_char ','
      (((replace_bracket_pair bounds_str.data).filter (fun c => c ≠ '[')).filter
        (fun c => c ≠ ']')) with
  | [a, b, c, d] =>
    match parse_int_chars a, parse_int_chars b, parse_int_chars c, parse_int_chars d with
    | some x1, some y1, some x2, some y2 =>
      some (min x1 x2, min y1 y2, max x1 x2, max y1 y2)
    | _, _, _, _ => none
  | _ => none

/-- One raw UI-tree node as read in the first pass of
`analyze_accessibility`: the attribute strings after `attrib.get` defaults
(`bounds` keeps its absent-vs-present distinction since its default is
`None`).  `structural_path` models `element.getroottree().getpath(element)`
from lxml, the structural fallback locator. -/
structure RawNode where
  bounds_attr : Option String
  text : String
  content_desc : String
  clickable_attr : String
  focusable_attr : String
  long_clickable_attr : String
  checkable_attr : String
  checked_attr : String
  cls : String
  resource_id : String
  package : String
  structural_path : String
deriving DecidableEq, Repr

/-- Embeds `coords = self.parse_bounds(bounds_str) if bounds_str else None`
(line 457): both an absent attribute and an empty string are falsy. -/
def node_coords (n : RawNode) : Option Rect :=
  match n.bounds_attr with
  | some s => if s = "" then none else parse_bounds s
  | none => none

/-- Python `str.strip()`: drop whitespace from both ends. -/
def py_strip (s : String) : String :=
  ⟨((s.data.dropWhile Char.isWhitespace).reverse.dropWhile Char.isWhitespace).reverse⟩

/-- The local `class_name = element.get('class', '').split('.')[-1]` of
`get_formatted_xpath` (line 392). -/
def formatted_class_name (n : RawNode) : String :=
  ⟨(split_on_char '.' n.cls.data).getLastD []⟩

/-- Embeds `get_formatted_xpath` (lines 389-407): attribute-based locator
with precedence resource-id, then content-desc, then text, falling back to
the structural path. -/
def get_formatted_xpath (n : RawNode) : String :=
  if n.resource_id ≠ "" then
    "//" ++ formatted_class_name n ++ "[@resource-id=\x27" ++ n.resource_id ++ "\x27]"
  else if n.content_desc ≠ "" then
    "//" ++ formatted_class_name n ++ "[@content-desc=\x27" ++ n.content_desc ++ "\x27]"
  else if n.text ≠ "" then
    "//" ++ formatted_class_name n ++ "[@text=\x27" ++ n.text ++ "\x27]"
  else n.structural_path

/-- Embeds the `element_data` construction of `analyze_accessibility`
(lines 459-473); in particular
`"xpath": self.get_formatted_xpath(node) if coords else ""` (line 472). -/
def build_element_data (n : RawNode) : ElementData :=
  ⟨node_coords n, py_strip n.text, py_strip n.content_desc,
   n.clickable_attr == "true", n.focusable_attr == "true",
   n.long_clickable_attr == "true", n.checkable_attr == "true",
   n.checked_attr == "true", n.cls, n.resource_id, n.package,
   if (node_coords n).isSome then get_formatted_xpath n else ""⟩

theorem string_ne_empty_of_length (s : String) (h : s.length ≠ 0) : s ≠ "" :=
  fun he => h (he ▸ rfl)

theorem xpath_shape_ne_empty (a b c d : String) : "//" ++ a ++ b ++ c ++ d ≠ "" := by
  apply string_ne_empty_of_length
  simp only [String.length_append]
  have h2 : ("//" : String).length = 2 := rfl
  omega

/-- Claim C4 is false on the code: a node carrying a non-empty resource-id
but no `bounds` attribute gets `xpath = ""`, because `analyze_accessibility`
only calls `get_formatted_xpath` when the bounds parsed
(`... if coords else ""`). -/
theorem spec_c4_counterexample :
    (⟨none, "", "", "false", "false", "false", "false", "false",
        "android.widget.Button", "com.app:id/submit", "com.app",
        "/hierarchy/node/node[1]"⟩ : RawNode).resource_id ≠ "" ∧
    (build_element_data ⟨none, "", "", "false", "false", "false", "false", "false",
        "android.widget.Button", "com.app:id/submit", "com.app",
        "/hierarchy/node/node[1]"⟩).xpath = "" := by
  exact ⟨by decide, rfl⟩

/-- Claim C4 amended: for a node whose bounds parsed, the element record's
xpath is `get_formatted_xpath` (precedence resource-id, then
content-desc, then text, then structural fallback), and it is non-empty
whenever the node has an identity-bearing attribute; a node whose bounds
did not parse gets the empty string regardless of its attributes. -/
theorem spec_c4_identity_path (n : RawNode) (hc : (node_coords n).isSome = true)
    (hid : n.resource_id ≠ "" ∨ n.content_desc ≠ "" ∨ n.text ≠ "") :
    (build_element_data n).xpath = get_formatted_xpath n ∧
      get_formatted_xpath n ≠ "" := by
  refine ⟨by simp [build_element_data, hc], ?_⟩
  rw [get_formatted_xpath]
  by_cases h1 : n.resource_id ≠ ""
  · rw [if_pos h1]
    exact xpath_shape_ne_empty _ _ _ _
  · rw [if_neg h1]
    by_cases h2 : n.content_desc ≠ ""
    · rw [if_pos h2]
      exact xpath_shape_ne_empty _ _ _ _
    · rw [if_neg h2]
      by_cases h3 : n.text ≠ ""
      · rw [if_pos h3]
        exact xpath_shape_ne_empty _ _ _ _
      · push_neg at h1 h2 h3
        rcases hid with h | h | h <;> simp_all

/-- Witness for the amended C4: a node with parsed bounds and a resource-id
gets a non-empty formatted xpath. -/
theorem spec_c4_witness :
    (node_coords ⟨some "[0,0,100,50]", "", "", "true", "false", "false", "false", "false",
        "android.widget.Button", "com.app:id/ok", "com.app",
        "/hierarchy/node[1]"⟩).isSome = true ∧
    ((⟨some "[0,0,100,50]", "", "", "true", "false", "false", "false", "false",
        "android.widget.Button", "com.app:id/ok", "com.app",
        "/hierarchy/node[1]"⟩ : RawNode).resource_id ≠ "" ∨
      (⟨some "[0,0,100,50]", "", "", "true", "false", "false", "false", "false",
        "android.widget.Button", "com.app:id/ok", "com.app",
        "/hierarchy/node[1]"⟩ : RawNode).content_desc ≠ "" ∨
      (⟨some "[0,0,100,50]", "", "", "true", "false", "false", "false", "false",
        "android.widget.Button", "com.app:id/ok", "com.app",
        "/hierarchy/node[1]"⟩ : RawNode).text ≠ "") ∧
    ((build_element_data ⟨some "[0,0,100,50]", "", "", "true", "false", "false", "false",
        "false", "android.widget.Button", "com.app:id/ok", "com.app",
        "/hierarchy/node[1]"⟩).xpath =
      get_formatted_xpath ⟨some "[0,0,100,50]", "", "", "true", "false", "false", "false",
        "false", "android.widget.Button", "com.app:id/ok", "com.app",
        "/hierarchy/node[1]"⟩ ∧
      get_formatted_xpath ⟨some "[0,0,100,50]", "", "", "true", "false", "false", "false",
        "false", "android.widget.Button", "com.app:id/ok", "com.app",
        "/hierarchy/node[1]"⟩ ≠ "") :=
  ⟨by decide, by decide,
    spec_c4_identity_path
      ⟨some "[0,0,100,50]", "", "", "true", "false", "false", "false", "false",
        "android.widget.Button", "com.app:id/ok", "com.app", "/hierarchy/node[1]"⟩
      (by decide) (by decide)⟩

/-- A Python dict modelled as an insertion-ordered association list; the
dicts handled by `load_rules_config` have unique keys, stated as a `Nodup`
hypothesis where a proof needs it. -/
abbrev PyDict (V : Type) := List (String × V)

/-- Python `key in d`. -/
def dict_has {V : Type} : PyDict V → String → Bool
  | [], _ => false
  | p :: rest, k => (p.1 == k) || dict_has rest k

/-- Python `d.get(key)` / `d[key]`: first entry with a matching key. -/
def dict_get {V : Type} : PyDict V → String → Option V
  | [], _ => none
  | p :: rest, k => if p.1 == k then some p.2 else dict_get rest k

/-- Python `d[k] = v`: overwrite in place when the key exists (keeping its
position), else append at the end (insertion order). -/
def dict_set {V : Type} (d : PyDict V) (k : String) (v : V) : PyDict V :=
  if dict_has d k then d.map (fun p => if p.1 == k then (p.1, v) else p)
  else d ++ [(k, v)]

/-- Python `base.update(upd)`: assign every key of `upd` in order. -/
def dict_update {V : Type} (base upd : PyDict V) : PyDict V :=
  upd.foldl (fun acc p => dict_set acc p.1 p.2) base

/-- One iteration of the merge loop of `load_rules_config` (lines 345-349):
`merged_rules[rule_id].update(rule_config)` when the id is known, else
`merged_rules[rule_id] = rule_config`. -/
def merge_step {V : Type} (merged : PyDict (PyDict V)) :
    String × PyDict V → PyDict (PyDict V)
  | (rule_id, rule_config) =>
    if dict_has merged rule_id then
      merged.map (fun q =>
        if q.1 == rule_id then (q.1, dict_update q.2 rule_config) else q)
    else merged ++ [(rule_id, rule_config)]

/-- The merge loop of `load_rules_config` (lines 344-351), starting from
`default_rules.copy()`. -/
def merge_rules {V : Type} (default_rules custom_rules : PyDict (PyDict V)) :
    PyDict (PyDict V) :=
  custom_rules.foldl merge_step default_rules

/-- Outcome of `open(rules_config)` followed by `json.load` on a string
path: the file may be missing, hold invalid JSON, or parse to a rule
mapping. -/
inductive FileReadOutcome (V : Type) where
  | fileNotFound : FileReadOutcome V
  | jsonDecodeError : FileReadOutcome V
  | parsed (custom_rules : PyDict (PyDict V)) : FileReadOutcome V
deriving DecidableEq

/-- The `rules_config` argument of `load_rules_config`: `None`, a file
path (abstracted by its read outcome), or an already-built mapping. -/
inductive RulesConfig (V : Type) where
  | pyNone : RulesConfig V
  | path (outcome : FileReadOutcome V) : RulesConfig V
  | dict (custom_rules : PyDict (PyDict V)) : RulesConfig V
deriving DecidableEq

/-- Embeds `load_rules_config` (lines 329-351).  Only `FileNotFoundError`
is caught (returning the defaults); a `json.JSONDecodeError` from invalid
JSON propagates out of the constructor, modelled as `Except.error`. -/
def load_rules_config {V : Type} (default_rules : PyDict (PyDict V)) :
    RulesConfig V → Except String (PyDict (PyDict V))
  | .pyNone => .ok default_rules
  | .path .fileNotFound => .ok default_rules
  | .path .jsonDecodeError => .error "json.decoder.JSONDecodeError"
  | .path (.parsed custom_rules) => .ok (merge_rules default_rules custom_rules)
  | .dict custom_rules => .ok (merge_rules default_rules custom_rules)

theorem dict_get_map_other {V : Type} (l : PyDict V) (k rid : String) (g : V → V)
    (hne : rid ≠ k) :
    dict_get (l.map (fun p => if p.1 == k then (p.1, g p.2) else p)) rid =
      dict_get l rid := by
  induction l with
  | nil => rfl
  | cons p t ih =>
    simp only [List.map_cons, dict_get]
    by_cases hk : p.1 = k
    · have h1 : (p.1 == k) = true := beq_iff_eq.mpr hk
      have h2 : (p.1 == rid) = false := by
        rw [beq_eq_false_iff_ne]
        intro h
        exact hne (by rw [← h, hk])
      rw [h1]
      simp only [if_true, dict_get, h2]
      simp only [Bool.false_eq_true, if_false]
      exact ih
    · have h1 : (p.1 == k) = false := beq_eq_false_iff_ne.mpr hk
      rw [h1]
      simp only [Bool.false_eq_true, if_false, dict_get]
      by_cases hp : p.1 = rid
      · have h2 : (p.1 == rid) = true := beq_iff_eq.mpr hp
        rw [h2]
        simp
      · have h2 : (p.1 == rid) = false := beq_eq_false_iff_ne.mpr hp
        rw [h2]
        simp only [Bool.false_eq_true, if_false]
        exact ih

theorem dict_get_map_hit {V : Type} (l : PyDict V) (k : String) (g : V → V)
    (h : dict_has l k = true) :
    dict_get (l.map (fun p => if p.1 == k then (p.1, g p.2) else p)) k =
      (dict_get l k).map g := by
  induction l with
  | nil => cases h
  | cons p t ih =>
    simp only [List.map_cons, dict_get]
    by_cases hk : p.1 = k
    · have h1 : (p.1 == k) = true := beq_iff_eq.mpr hk
      rw [h1]
      simp [dict_get, h1]
    · have h1 : (p.1 == k) = false := beq_eq_false_iff_ne.mpr hk
      rw [h1]
      simp only [Bool.false_eq_true, if_false, dict_get, h1]
      have h' : dict_has t k = true := by
        simpa [dict_has, h1] using h
      exact ih h'

theorem dict_get_append_other {V : Type} (l : PyDict V) (k rid : String) (v : V)
    (hne : rid ≠ k) :
    dict_get (l ++ [(k, v)]) rid = dict_get l rid := by
  induction l with
  | nil =>
    have h1 : (k == rid) = false := beq_eq_false_iff_ne.mpr (fun h => hne h.symm)
    simp [dict_get, h1]
  | cons p t ih =>
    simp only [List.cons_append, dict_get]
    by_cases hp : (p.1 == rid) = true
    · rw [hp]
      simp
    · simp only [Bool.not_eq_true] at hp
      rw [hp]
      simp only [Bool.false_eq_true, if_false]
      exact ih

theorem dict_has_false_get_none {V : Type} (l : PyDict V) (k : String)
    (h : dict_has l k = false) : dict_get l k = none := by
  induction l with
  | nil => rfl
  | cons p t ih =>
    simp only [dict_has, Bool.or_eq_false_iff] at h
    simp only [dict_get, h.1, Bool.false_eq_true, if_false]
    exact ih h.2

theorem dict_get_append_self {V : Type} (l : PyDict V) (k : String) (v : V)
    (h : dict_has l k = false) :
    dict_get (l ++ [(k, v)]) k = some v := by
  induction l with
  | nil => simp [dict_get]
  | cons p t ih =>
    simp only [dict_has, Bool.or_eq_false_iff] at h
    simp only [List.cons_append, dict_get, h.1, Bool.false_eq_true, if_false]
    exact ih h.2

theorem dict_get_none_of_not_mem_keys {V : Type} (l : PyDict V) (k : String)
    (h : k ∉ l.map Prod.fst) : dict_get l k = none := by
  induction l with
  | nil => rfl
  | cons p t ih =>
    simp only [List.map_cons, List.mem_cons, not_or] at h
    have h1 : (p.1 == k) = false := beq_eq_false_iff_ne.mpr (fun he => h.1 he.symm)
    simp only [dict_get, h1, Bool.false_eq_true, if_false]
    exact ih h.2

theorem dict_get_some_of_has {V : Type} (l : PyDict V) (k : String)
    (h : dict_has l k = true) : ∃ v, dict_get l k = some v := by
  induction l with
  | nil => cases h
  | cons p t ih =>
    by_cases hp : (p.1 == k) = true
    · exact ⟨p.2, by simp [dict_get, hp]⟩
    · simp only [Bool.not_eq_true] at hp
      simp only [dict_has, hp, Bool.false_or] at h
      obtain ⟨v, hv⟩ := ih h
      exact ⟨v, by simp [dict_get, hp, hv]⟩

theorem merge_step_get_other {V : Type} (m : PyDict (PyDict V)) (k rid : String)
    (cfg : PyDict V) (hne : rid ≠ k) :
    dict_get (merge_step m (k, cfg)) rid = dict_get m rid := by
  show dict_get
    (if dict_has m k then
      m.map (fun q => if q.1 == k then (q.1, dict_update q.2 cfg) else q)
     else m ++ [(k, cfg)]) rid = dict_get m rid
  by_cases h : dict_has m k = true
  · rw [if_pos h]
    exact dict_get_map_other m k rid (fun d => dict_update d cfg) hne
  · rw [if_neg h]
    exact dict_get_append_other m k rid cfg hne

theorem merge_step_get_self {V : Type} (m : PyDict (PyDict V)) (k : String)
    (cfg : PyDict V) :
    dict_get (merge_step m (k, cfg)) k =
      (match dict_get m k with
       | some d => some (dict_update d cfg)
       | none => some cfg) := by
  show dict_get
    (if dict_has m k then
      m.map (fun q => if q.1 == k then (q.1, dict_update q.2 cfg) else q)
     else m ++ [(k, cfg)]) k = _
  by_cases h : dict_has m k = true
  · rw [if_pos h]
    obtain ⟨v, hv⟩ := dict_get_some_of_has m k h
    have hmap := dict_get_map_hit m k (fun d => dict_update d cfg) h
    rw [hv] at hmap
    rw [hv]
    exact hmap
  · rw [if_neg h]
    have h' : dict_has m k = false := by
      cases hh : dict_has m k
      · rfl
      · exact absurd hh h
    rw [dict_get_append_self m k cfg h', dict_has_false_get_none m k h']

theorem merge_rules_get {V : Type} : ∀ (custom_rules : PyDict (PyDict V))
    (default_rules : PyDict (PyDict V)) (rid : String),
    (custom_rules.map Prod.fst).Nodup →
    dict_get (merge_rules default_rules custom_rules) rid =
      (match dict_get default_rules rid, dict_get custom_rules rid with
       | some d, some c => some (dict_update d c)
       | none, some c => some c
       | some d, none => some d
       | none, none => none) := by
  intro custom_rules
  induction custom_rules with
  | nil =>
    intro defaults rid _
    show dict_get defaults rid = _
    cases dict_get defaults rid <;> rfl
  | cons p rest ih =>
    intro defaults rid hnd
    obtain ⟨k, cfg⟩ := p
    simp only [List.map_cons, List.nodup_cons] at hnd
    have hmerge : merge_rules defaults ((k, cfg) :: rest) =
        merge_rules (merge_step defaults (k, cfg)) rest := rfl
    rw [hmerge, ih (merge_step defaults (k, cfg)) rid hnd.2]
    by_cases hrid : rid = k
    · subst hrid
      have hrest : dict_get rest rid = none :=
        dict_get_none_of_not_mem_keys rest rid hnd.1
      have hhead : dict_get ((rid, cfg) :: rest) rid = some cfg := by
        simp [dict_get]
      rw [hrest, hhead, merge_step_get_self]
      cases dict_get defaults rid <;> rfl
    · have h1 : (k == rid) = false := beq_eq_false_iff_ne.mpr (fun h => hrid h.symm)
      have hhead : dict_get ((k, cfg) :: rest) rid = dict_get rest rid := by
        simp [dict_get, h1]
      rw [hhead, merge_step_get_other defaults k rid cfg hrid]

/-- Default rule entries for exercising `load_rules_config` concretely. -/
def demo_default_rules : PyDict (PyDict String) :=
  [("color-contrast", [("priority", "high"), ("threshold", "4.5")]),
   ("missing-labels", [("priority", "critical")])]

/-- Claim C5 is false on the code for the invalid-JSON case: only
`FileNotFoundError` is caught, so a readable file with invalid JSON makes
`json.load` raise `JSONDecodeError`, which propagates and aborts the scan
instead of falling back to the defaults. -/
theorem spec_c5_counterexample :
    load_rules_config demo_default_rules (.path .jsonDecodeError) =
      .error "json.decoder.JSONDecodeError" ∧
    load_rules_config demo_default_rules (.path .jsonDecodeError) ≠
      .ok demo_default_rules := by
  exact ⟨rfl, by simp [load_rules_config]⟩

/-- Claim C5 amended: a missing override file (and a `None` source) falls
back to exactly the defaults; invalid JSON raises instead of recovering;
for a readable source, an override id present in the defaults overlays only
the supplied fields (`dict.update`), and an absent id is inserted verbatim
- stated as a complete characterization of lookups in the merged catalog. -/
theorem spec_c5_rules_loading {V : Type} (default_rules custom_rules : PyDict (PyDict V))
    (rid : String) (hnd : (custom_rules.map Prod.fst).Nodup) :
    load_rules_config default_rules .pyNone = .ok default_rules ∧
    load_rules_config default_rules (.path .fileNotFound) = .ok default_rules ∧
    load_rules_config default_rules (.path (.parsed custom_rules)) =
      .ok (merge_rules default_rules custom_rules) ∧
    dict_get (merge_rules default_rules custom_rules) rid =
      (match dict_get default_rules rid, dict_get custom_rules rid with
       | some d, some c => some (dict_update d c)
       | none, some c => some c
       | some d, none => some d
       | none, none => none) :=
  ⟨rfl, rfl, rfl, merge_rules_get custom_rules default_rules rid hnd⟩

/-- Override entries: one id present in the defaults (partial overlay), one
absent (inserted verbatim). -/
def demo_custom_rules : PyDict (PyDict String) :=
  [("color-contrast", [("threshold", "3.0")]),
   ("my-team-rule", [("priority", "low")])]

/-- Witness for the amended C5: overlaying `color-contrast` keeps the
default `priority` and replaces only the supplied `threshold`. -/
theorem spec_c5_witness :
    (demo_custom_rules.map Prod.fst).Nodup ∧
    dict_get (merge_rules demo_default_rules demo_custom_rules) "color-contrast" =
      some [("priority", "high"), ("threshold", "3.0")] ∧
    dict_get (merge_rules demo_default_rules demo_custom_rules) "my-team-rule" =
      some [("priority", "low")] := by
  refine ⟨by decide, ?_, ?_⟩
  · have h := (spec_c5_rules_loading demo_default_rules demo_custom_rules
      "color-contrast" (by decide)).2.2.2
    rw [h]
    rfl
  · have h := (spec_c5_rules_loading demo_default_rules demo_custom_rules
      "my-team-rule" (by decide)).2.2.2
    rw [h]
    rfl
